import Mathlib

/-!
Shallow embedding of the generic-slippage detector
(`src/detectors/generic_slippage/detector.py`, `GenericSlippageDetector._detect`)
over the IR model it consumes (contracts, functions, CFG nodes, SlithIR
operations, variables) and the external data-dependency oracle
(`is_dependent(candidate, source, contract_scope)`).

The Python `_detect` walks every function of every contract, collects the
set of lvalues of `HighLevelCall`/`LowLevelCall` operations, skips the
function when that set is empty, and otherwise, for each `Condition`
operation, correlates the owning node's `variables_read` with the function
parameters and with the call-result set through `is_dependent`, emitting a
finding when both correlations are non-empty.  Python `set`s are modelled
as duplicate-free lists (`List.dedup` of the insertion sequence):
membership and cardinality agree with the Python set, which is all the
analysis observes.
-/

/-- A SlithIR variable.  Identity is structural (`id` is the front end's
identity handle); `name` is the display name, `none` for an unnamed
temporary (Python `None`); the empty string is also a "falsy" name in
Python and is treated as absent where the code tests truthiness. -/
structure Var where
  id : Nat
  name : Option String
deriving DecidableEq, Repr

/-- One SlithIR operation, as far as `_detect` distinguishes them:
`isinstance(ir, (HighLevelCall, LowLevelCall))` with its optional `lvalue`,
`isinstance(ir, Condition)`, and everything else (internal calls,
assignments, arithmetic, ...), which the detector ignores. -/
inductive Op where
  | highLevelCall (lvalue : Option Var)
  | lowLevelCall (lvalue : Option Var)
  | internalCall (lvalue : Option Var)
  | assignment
  | binaryOp
  | condition
  | other
deriving DecidableEq, Repr

/-- One CFG node: its ordered `irs`, its `variables_read` projection and
its `source_mapping.lines` tag (used only for reporting). -/
structure Node where
  irs : List Op
  variablesRead : List Var
  srcLines : List Nat
deriving DecidableEq, Repr

/-- A function: ordered `parameters` and ordered CFG `nodes`. -/
structure Func where
  name : String
  parameters : List Var
  nodes : List Node
deriving DecidableEq, Repr

/-- A contract: its ordered functions.  Also the scope argument every
dependency query receives. -/
structure Contract where
  functions : List Func
deriving DecidableEq, Repr

/-- The dependency oracle: `is_dependent(candidate, source, scope)`. -/
def Oracle : Type := Var → Var → Contract → Bool

/-- The lvalue contributed by one operation to the call-result set:
`ir.lvalue` when `ir` is a `HighLevelCall` or `LowLevelCall` (and the
lvalue is present), nothing otherwise. -/
def extLvalue : Op → Option Var
  | .highLevelCall lv => lv
  | .lowLevelCall lv => lv
  | _ => none

/-- The call-result set of a function: every variable stored as the
`lvalue` of an external call in any node, collected into a set
(`call_results = set(); ... call_results.add(ir.lvalue)`). -/
def callResults (f : Func) : List Var :=
  (f.nodes.flatMap (fun n => n.irs.filterMap extLvalue)).dedup

/-- The tainting correlation loops: for each variable `v` read by the
condition's node, for each candidate (a parameter, resp. a call-result
variable), append the candidate when `is_dependent v candidate scope`
holds.  This is both `tainted_by_param` (candidates = parameters) and
`tainted_by_call` (candidates = call results). -/
def taintedBy (o : Oracle) (c : Contract) (vars cands : List Var) : List Var :=
  vars.flatMap (fun v => cands.filter (fun p => o v p c))

/-- A display name that Python's `if r.name` accepts: present and
non-empty. -/
def truthyName (v : Var) : Option String :=
  match v.name with
  | some s => if s = "" then none else some s
  | none => none

/-- One emitted finding: the enclosing function, the guarding node's
source lines, and the deduplicated display-name lists carried by the
report (`param_names = list(set([p.name for p in tainted_by_param]))`,
`call_names = list(set([r.name for r in tainted_by_call if r.name]))`).
Parameter names are not filtered for absence, so they are `Option String`;
call names pass the truthiness filter, so they are plain `String`. -/
structure Finding where
  fnName : String
  srcLines : List Nat
  paramNames : List (Option String)
  callNames : List String
deriving DecidableEq, Repr

/-- What one `Condition` operation in node `n` of function `f` emits:
`some` finding when both `tainted_by_param` and `tainted_by_call` are
non-empty, `none` otherwise. -/
def findingOfCondition (o : Oracle) (c : Contract) (f : Func) (n : Node) :
    Option Finding :=
  let tp := taintedBy o c n.variablesRead f.parameters
  let tc := taintedBy o c n.variablesRead (callResults f)
  if tp ≠ [] ∧ tc ≠ [] then
    some { fnName := f.name
           srcLines := n.srcLines
           paramNames := (tp.map Var.name).dedup
           callNames := (tc.filterMap truthyName).dedup }
  else none

/-- Findings emitted while scanning node `n`: one per `Condition`
operation among its `irs` (each evaluated against the node's
`variables_read`), in operation order. -/
def findingsOfNode (o : Oracle) (c : Contract) (f : Func) (n : Node) :
    List Finding :=
  n.irs.filterMap (fun ir =>
    match ir with
    | .condition => findingOfCondition o c f n
    | _ => none)

/-- Per-function analysis: compute the call-result set, `continue` when it
is empty, otherwise scan every node for conditions. -/
def detectFunction (o : Oracle) (c : Contract) (f : Func) : List Finding :=
  if callResults f = [] then []
  else f.nodes.flatMap (findingsOfNode o c f)

/-- Per-contract analysis: every function in order. -/
def analyze (o : Oracle) (c : Contract) : List Finding :=
  c.functions.flatMap (detectFunction o c)

/-- The whole `_detect`: every contract in order. -/
def detect (o : Oracle) (cs : List Contract) : List Finding :=
  cs.flatMap (analyze o)

/-- The oracle queries one `Condition` triggers, in program order: every
(read-variable, parameter) pair from the `tainted_by_param` loop, then
every (read-variable, call-result) pair from the `tainted_by_call` loop.
All pairs are queried unconditionally, whatever the answers. -/
def conditionQueries (vars params callRes : List Var) : List (Var × Var) :=
  vars.flatMap (fun v => params.map (fun p => (v, p))) ++
    vars.flatMap (fun v => callRes.map (fun r => (v, r)))

/-- The oracle queries issued while scanning node `n` of function `f`. -/
def nodeQueries (f : Func) (n : Node) : List (Var × Var) :=
  n.irs.flatMap (fun ir =>
    match ir with
    | .condition => conditionQueries n.variablesRead f.parameters (callResults f)
    | _ => [])

/-- The oracle queries issued while analysing function `f`: none when the
call-result set is empty (the function is skipped before any loop over
conditions runs). -/
def functionQueries (f : Func) : List (Var × Var) :=
  if callResults f = [] then []
  else f.nodes.flatMap (nodeQueries f)

/-- The oracle queries issued while analysing a whole contract. -/
def analyzeQueries (c : Contract) : List (Var × Var) :=
  c.functions.flatMap functionQueries

/-- Whether an operation is one of the two external-call kinds the
collector's `isinstance` test matches. -/
def isExternalCall : Op → Bool
  | .highLevelCall _ => true
  | .lowLevelCall _ => true
  | _ => false

/-- A fallible dependency oracle: `is_dependent` may raise.  Python
exceptions are modelled by `Except Unit`. -/
def OracleE : Type := Var → Var → Contract → Except Unit Bool

/-- The inner correlation loop over candidates for one read variable,
under a fallible oracle.  The Python code wraps no query in `try`, so the
first raising query propagates. -/
def depFilterE (o : OracleE) (c : Contract) (v : Var) :
    List Var → Except Unit (List Var)
  | [] => .ok []
  | p :: ps => do
    let b ← o v p c
    let rest ← depFilterE o c v ps
    pure (if b then p :: rest else rest)

/-- The correlation loops of `taintedBy` under a fallible oracle. -/
def taintedByE (o : OracleE) (c : Contract) (vars cands : List Var) :
    Except Unit (List Var) :=
  match vars with
  | [] => .ok []
  | v :: vs => do
    let here ← depFilterE o c v cands
    let rest ← taintedByE o c vs cands
    pure (here ++ rest)

/-- `findingOfCondition` under a fallible oracle. -/
def findingOfConditionE (o : OracleE) (c : Contract) (f : Func) (n : Node) :
    Except Unit (Option Finding) := do
  let tp ← taintedByE o c n.variablesRead f.parameters
  let tc ← taintedByE o c n.variablesRead (callResults f)
  if tp ≠ [] ∧ tc ≠ [] then
    pure (some ⟨f.name, n.srcLines, (tp.map Var.name).dedup,
                (tc.filterMap truthyName).dedup⟩)
  else
    pure none

/-- Scanning a node's operation list under a fallible oracle. -/
def findingsOfNodeE (o : OracleE) (c : Contract) (f : Func) (n : Node) :
    List Op → Except Unit (List Finding)
  | [] => .ok []
  | ir :: rest => do
    let here ← (match ir with
      | Op.condition => do
        let fo ← findingOfConditionE o c f n
        pure fo.toList
      | _ => pure ([] : List Finding))
    let tail ← findingsOfNodeE o c f n rest
    pure (here ++ tail)

/-- Scanning a function's nodes under a fallible oracle. -/
def nodesE (o : OracleE) (c : Contract) (f : Func) :
    List Node → Except Unit (List Finding)
  | [] => .ok []
  | n :: ns => do
    let a ← findingsOfNodeE o c f n n.irs
    let b ← nodesE o c f ns
    pure (a ++ b)

/-- `detectFunction` under a fallible oracle: the skip happens before any
query, everything after propagates failures. -/
def detectFunctionE (o : OracleE) (c : Contract) (f : Func) :
    Except Unit (List Finding) :=
  if callResults f = [] then .ok [] else nodesE o c f f.nodes

/-- Folding a contract's functions under a fallible oracle. -/
def functionsE (o : OracleE) (c : Contract) :
    List Func → Except Unit (List Finding)
  | [] => .ok []
  | f :: fs => do
    let a ← detectFunctionE o c f
    let b ← functionsE o c fs
    pure (a ++ b)

/-- `analyze` under a fallible oracle. -/
def analyzeE (o : OracleE) (c : Contract) : Except Unit (List Finding) :=
  functionsE o c c.functions

/-- The oracle whose every query raises. -/
def allFailOracle : OracleE := fun _ _ _ => .error ()

/- Concrete fixtures (scenario A of the spec and small variants), used by
the witnesses and counterexamples below. -/

/-- The `minOut` parameter of the example swap function. -/
def vMinOut : Var := ⟨1, some "minOut"⟩

/-- The variable capturing the external call's result in the example. -/
def vAmountOut : Var := ⟨2, some "amountOut"⟩

/-- An unnamed temporary capturing a call result. -/
def vTmp : Var := ⟨10, none⟩

/-- A named call-result variable for the unnamed-parameter example. -/
def vOut : Var := ⟨11, some "out"⟩

/-- An unnamed function parameter. -/
def vAnon : Var := ⟨12, none⟩

/-- Identity dependency oracle: a variable depends exactly on itself. -/
def exO : Oracle := fun v s _ => decide (v = s)

/-- Node performing the external call `amountOut = pool.swap(...)`. -/
def exCallNode : Node := ⟨[.highLevelCall (some vAmountOut)], [], [5]⟩

/-- Node guarding `require(amountOut >= minOut)`. -/
def exGuardNode : Node := ⟨[.condition], [vAmountOut, vMinOut], [7]⟩

/-- Example function `swap(minOut)`: one external call, one guard. -/
def exSwap : Func := ⟨"swap", [vMinOut], [exCallNode, exGuardNode]⟩

/-- Example function with a condition but no external call at all. -/
def exNoCallFn : Func :=
  ⟨"viewOnly", [vMinOut], [⟨[.internalCall (some vAmountOut), .assignment, .condition], [vMinOut], [11]⟩]⟩

/-- Example contract: the swap and the call-free function. -/
def exC : Contract := ⟨[exSwap, exNoCallFn]⟩

/-- Contract with just the swap function (used for the abort example). -/
def exC5 : Contract := ⟨[exSwap]⟩

/-- Function whose only tainting call result is an unnamed temporary. -/
def exUnnamedCallFn : Func :=
  ⟨"swapUnnamed", [vMinOut],
   [⟨[.lowLevelCall (some vTmp)], [], [5]⟩, ⟨[.condition], [vTmp, vMinOut], [7]⟩]⟩

/-- Contract for the empty call-name-list counterexample. -/
def exC6 : Contract := ⟨[exUnnamedCallFn]⟩

/-- Function whose tainting parameter is unnamed. -/
def exAnonParamFn : Func :=
  ⟨"anonParam", [vAnon],
   [⟨[.highLevelCall (some vOut)], [], [2]⟩, ⟨[.condition], [vOut, vAnon], [3]⟩]⟩

/-- Contract for the unfiltered parameter-name counterexample. -/
def exC7 : Contract := ⟨[exAnonParamFn]⟩

/- Basic lemmas about the pipeline. -/

theorem mem_taintedBy (o : Oracle) (c : Contract) (vars cands : List Var)
    (a : Var) :
    a ∈ taintedBy o c vars cands ↔
      a ∈ cands ∧ ∃ v ∈ vars, o v a c = true := by
  simp only [taintedBy, List.mem_flatMap, List.mem_filter]
  constructor
  · rintro ⟨v, hv, ha, hdep⟩
    exact ⟨ha, v, hv, hdep⟩
  · rintro ⟨ha, v, hv, hdep⟩
    exact ⟨v, hv, ha, hdep⟩

theorem taintedBy_nil_cands (o : Oracle) (c : Contract) (vars : List Var) :
    taintedBy o c vars [] = [] := by
  simp [taintedBy]

/- Shared helper lemmas. -/

theorem mem_callResults (f : Func) (v : Var) :
    v ∈ callResults f ↔
      ∃ n ∈ f.nodes, ∃ op ∈ n.irs, extLvalue op = some v := by
  simp [callResults, List.mem_dedup, List.mem_flatMap, List.mem_filterMap]

theorem flatMap_const_length {α β : Type} (g : α → List β) (k : Nat)
    (hg : ∀ a, (g a).length = k) :
    ∀ l : List α, (l.flatMap g).length = l.length * k := by
  intro l
  induction l with
  | nil => simp
  | cons a l ih => simp [List.flatMap_cons, hg, ih, Nat.succ_mul, Nat.add_comm]

theorem length_conditionQueries (vars params callRes : List Var) :
    (conditionQueries vars params callRes).length =
      vars.length * (params.length + callRes.length) := by
  have h1 := flatMap_const_length (fun v => params.map (fun p => (v, p)))
    params.length (fun v => by simp) vars
  have h2 := flatMap_const_length (fun v => callRes.map (fun r => (v, r)))
    callRes.length (fun v => by simp) vars
  simp [conditionQueries, List.length_append, h1, h2, Nat.mul_add]

/-- C1: for a `Condition` in a function whose call-result set is non-empty,
the tainting-parameter list contains exactly the parameters on which some
variable read by the owning node depends (per the oracle, within the
contract scope), and the tainting-call-result list contains exactly the
call-result variables on which some read variable depends; membership is
determined solely by individual oracle answers, with no extra closure
computed by the correlator. -/
theorem taintedBy_matches_oracle (o : Oracle) (c : Contract) (f : Func)
    (hf : callResults f ≠ []) (n : Node) (hn : n ∈ f.nodes) :
    (∀ p, p ∈ taintedBy o c n.variablesRead f.parameters ↔
        p ∈ f.parameters ∧ ∃ v ∈ n.variablesRead, o v p c = true) ∧
    (∀ r, r ∈ taintedBy o c n.variablesRead (callResults f) ↔
        r ∈ callResults f ∧ ∃ v ∈ n.variablesRead, o v r c = true) :=
  ⟨fun p => mem_taintedBy o c _ _ p, fun r => mem_taintedBy o c _ _ r⟩

/-- Witness for C1 at the concrete swap fixture: `minOut` is in the
tainting-parameter list of the guard node iff the oracle relates a read
variable to it. -/
theorem taintedBy_matches_oracle_witness :
    vMinOut ∈ taintedBy exO exC exGuardNode.variablesRead exSwap.parameters ↔
      vMinOut ∈ exSwap.parameters ∧
        ∃ v ∈ exGuardNode.variablesRead, exO v vMinOut exC = true :=
  (taintedBy_matches_oracle exO exC exSwap (by decide) exGuardNode
    (by decide)).1 vMinOut

/-- C2: a `Condition` operation produces a finding exactly when both its
tainting-parameter list and its tainting-call-result list are non-empty;
moreover a function with an empty call-result set (which `_detect` skips)
could not have produced one anyway, since its tainting-call-result list is
necessarily empty. -/
theorem finding_iff_both_tainted (o : Oracle) (c : Contract) (f : Func)
    (n : Node) (hn : n ∈ f.nodes) (hc : Op.condition ∈ n.irs) :
    ((findingOfCondition o c f n).isSome ↔
      taintedBy o c n.variablesRead f.parameters ≠ [] ∧
        taintedBy o c n.variablesRead (callResults f) ≠ []) ∧
    (callResults f = [] → findingOfCondition o c f n = none) := by
  constructor
  · by_cases h : taintedBy o c n.variablesRead f.parameters ≠ [] ∧
        taintedBy o c n.variablesRead (callResults f) ≠ []
    · simp [findingOfCondition, h]
    · simp [findingOfCondition, h]
  · intro h
    simp [findingOfCondition, h, taintedBy_nil_cands]

/-- Witness for C2 at the concrete swap fixture: the guard emits a finding
and indeed both tainting lists are non-empty. -/
theorem finding_iff_both_tainted_witness :
    (findingOfCondition exO exC exSwap exGuardNode).isSome ↔
      taintedBy exO exC exGuardNode.variablesRead exSwap.parameters ≠ [] ∧
        taintedBy exO exC exGuardNode.variablesRead (callResults exSwap) ≠ [] :=
  (finding_iff_both_tainted exO exC exSwap exGuardNode (by decide)
    (by decide)).1

/-- C3: a function with an empty call-result set is skipped outright: it
contributes no findings and triggers no oracle queries at all. -/
theorem empty_callResults_no_findings_no_queries (o : Oracle) (c : Contract)
    (f : Func) (hf : f ∈ c.functions) (h : callResults f = []) :
    detectFunction o c f = [] ∧ functionQueries f = [] := by
  constructor <;> simp [detectFunction, functionQueries, h]

/-- Witness for C3: the call-free fixture function yields no finding and
no query. -/
theorem empty_callResults_no_findings_no_queries_witness :
    detectFunction exO exC exNoCallFn = [] ∧ functionQueries exNoCallFn = [] :=
  empty_callResults_no_findings_no_queries exO exC exNoCallFn (by decide)
    (by decide)

/-- C4: the call-result set contains exactly the variables that appear as
the present lvalue of some `HighLevelCall` or `LowLevelCall` operation in
some node of the function; an external call whose result is discarded
contributes nothing. -/
theorem callResults_are_extcall_lvalues (f : Func) (v : Var) :
    v ∈ callResults f ↔
      ∃ n ∈ f.nodes, ∃ op ∈ n.irs,
        op = Op.highLevelCall (some v) ∨ op = Op.lowLevelCall (some v) := by
  rw [mem_callResults]
  constructor
  · rintro ⟨n, hn, op, hop, hlv⟩
    refine ⟨n, hn, op, hop, ?_⟩
    cases op <;> simp_all [extLvalue]
  · rintro ⟨n, hn, op, hop, h | h⟩ <;> subst h <;> exact ⟨n, hn, _, hop, rfl⟩

/-- C8: one `Condition` operation triggers at most
`|variables_read| * (|parameters| + |call_results|)` oracle queries (the
two correlation loops issue exactly that many). -/
theorem oracle_queries_per_condition_bound (f : Func) (n : Node)
    (hn : n ∈ f.nodes) :
    (conditionQueries n.variablesRead f.parameters (callResults f)).length ≤
      n.variablesRead.length *
        (f.parameters.length + (callResults f).length) :=
  Nat.le_of_eq (length_conditionQueries _ _ _)

/-- Witness for C8 at the guard node of the swap fixture. -/
theorem oracle_queries_per_condition_bound_witness :
    (conditionQueries exGuardNode.variablesRead exSwap.parameters
        (callResults exSwap)).length ≤
      exGuardNode.variablesRead.length *
        (exSwap.parameters.length + (callResults exSwap).length) :=
  oracle_queries_per_condition_bound exSwap exGuardNode (by decide)

/-- C9: the analysis is a pure function of the contract and the oracle's
answers: two runs against extensionally equal oracles produce the same
finding sequence, in the same order. -/
theorem analyze_deterministic (c : Contract) (o o' : Oracle)
    (h : ∀ v s k, o v s k = o' v s k) :
    analyze o c = analyze o' c := by
  have ho : o = o' := funext fun v => funext fun s => funext fun k => h v s k
  rw [ho]

/-- Witness for C9: two runs on the example contract with the example
oracle coincide. -/
theorem analyze_deterministic_witness :
    analyze exO exC = analyze exO exC :=
  analyze_deterministic exC exO exO (fun _ _ _ => rfl)

theorem extLvalue_eq_none_of_not_external (op : Op)
    (h : isExternalCall op = false) : extLvalue op = none := by
  cases op <;> simp_all [isExternalCall, extLvalue]

/-- C10: only `HighLevelCall`/`LowLevelCall` operations feed the
call-result set; a function whose nodes contain no such operation has an
empty call-result set and yields no findings. -/
theorem non_external_ops_no_callResults (o : Oracle) (c : Contract)
    (f : Func) (h : ∀ n ∈ f.nodes, ∀ op ∈ n.irs, isExternalCall op = false) :
    callResults f = [] ∧ detectFunction o c f = [] := by
  have hcr : callResults f = [] := by
    rw [List.eq_nil_iff_forall_not_mem]
    intro v hv
    rcases (mem_callResults f v).1 hv with ⟨n, hn, op, hop, hlv⟩
    rw [extLvalue_eq_none_of_not_external op (h n hn op hop)] at hlv
    exact Option.noConfusion hlv
  exact ⟨hcr, by simp [detectFunction, hcr]⟩

/-- Witness for C10: the fixture function whose operations are an internal
call, an assignment and a condition has no call results and no findings. -/
theorem non_external_ops_no_callResults_witness :
    callResults exNoCallFn = [] ∧ detectFunction exO exC exNoCallFn = [] :=
  non_external_ops_no_callResults exO exC exNoCallFn (by decide)

theorem condition_filterMap_replicate (fd : Finding)
    (g : Op → Option Finding) (hg : g Op.condition = some fd)
    (h0 : ∀ op, op ≠ Op.condition → g op = none) :
    ∀ l : List Op, l.filterMap g = List.replicate (l.count Op.condition) fd := by
  intro l
  induction l with
  | nil => rfl
  | cons op rest ih =>
    by_cases hop : op = Op.condition
    · subst hop
      simp [List.filterMap_cons, hg, List.count_cons, ih, List.replicate_succ]
    · simp [List.filterMap_cons, h0 op hop, List.count_cons, hop, ih]

/-- C6 (amended): when a condition's tainting-parameter and
tainting-call-result lists are both non-empty, scanning the node emits
exactly one finding per `Condition` operation it contains; each such
finding's parameter-name list is non-empty and duplicate-free, its
call-result-name list is duplicate-free, and the latter is non-empty
provided at least one tainting call-result variable has a present,
non-empty display name (unnamed temporaries are filtered out of it). -/
theorem per_condition_finding_and_name_lists (o : Oracle) (c : Contract)
    (f : Func) (n : Node) (hn : n ∈ f.nodes)
    (htp : taintedBy o c n.variablesRead f.parameters ≠ [])
    (htc : taintedBy o c n.variablesRead (callResults f) ≠ []) :
    (findingsOfNode o c f n).length = n.irs.count Op.condition ∧
    ∀ fd ∈ findingsOfNode o c f n,
      fd.paramNames ≠ [] ∧ fd.paramNames.Nodup ∧ fd.callNames.Nodup ∧
      ((∃ r ∈ taintedBy o c n.variablesRead (callResults f),
          truthyName r ≠ none) → fd.callNames ≠ []) := by
  have hsome : findingOfCondition o c f n =
      some ⟨f.name, n.srcLines,
            ((taintedBy o c n.variablesRead f.parameters).map Var.name).dedup,
            ((taintedBy o c n.variablesRead (callResults f)).filterMap
              truthyName).dedup⟩ := by
    simp [findingOfCondition, htp, htc]
  have hrep := condition_filterMap_replicate _
    (fun ir => match ir with
      | Op.condition => findingOfCondition o c f n
      | _ => none)
    hsome (fun op hop => by cases op <;> simp_all) n.irs
  constructor
  · rw [findingsOfNode, hrep, List.length_replicate]
  · intro fd hfd
    rw [findingsOfNode, hrep] at hfd
    have hfd' := List.eq_of_mem_replicate hfd
    subst hfd'
    refine ⟨?_, List.nodup_dedup _, List.nodup_dedup _, ?_⟩
    · intro hnil
      exact htp (List.map_eq_nil_iff.1 ((List.dedup_eq_nil _).1 hnil))
    · rintro ⟨r, hr, hne⟩ hnil
      cases h : truthyName r with
      | none => exact hne h
      | some s =>
        have hs : s ∈ ((taintedBy o c n.variablesRead
            (callResults f)).filterMap truthyName).dedup :=
          List.mem_dedup.2 (List.mem_filterMap.2 ⟨r, hr, h⟩)
        have hnil' : ((taintedBy o c n.variablesRead
            (callResults f)).filterMap truthyName).dedup = ([] : List String) :=
          hnil
        rw [hnil'] at hs
        exact (List.not_mem_nil s) hs

/-- Witness for C6 (amended) at the swap fixture: the guard node emits
exactly as many findings as it has `Condition` operations. -/
theorem per_condition_finding_and_name_lists_witness :
    (findingsOfNode exO exC exSwap exGuardNode).length =
      exGuardNode.irs.count Op.condition :=
  (per_condition_finding_and_name_lists exO exC exSwap exGuardNode
    (by decide) (by decide) (by decide)).1

/-- Counterexample to C6 as stated: in `exC6` the guard condition depends
on the parameter `minOut` and on the call result `vTmp` (both tainting
lists are non-empty, so a finding is emitted), yet the finding's
call-result display-name list is empty, because the only tainting call
result is an unnamed temporary and `call_names` filters falsy names while
the emission test does not look at names. -/
theorem emitted_finding_empty_callNames_cex :
    analyze exO exC6 =
      [{ fnName := "swapUnnamed", srcLines := [7],
         paramNames := [some "minOut"], callNames := [] }] := by rfl

/-- C7 (amended): unnamed or empty-named variables are omitted from the
call-result name list only: every reported call name is non-empty and is
the present display name of some tainting call-result variable.  The
parameter-name list is built without any filter (see the counterexample:
an absent parameter name is reported as-is). -/
theorem callNames_omit_falsy_names (o : Oracle) (c : Contract) (f : Func)
    (n : Node) (fd : Finding) (hfd : fd ∈ findingsOfNode o c f n) :
    ∀ s ∈ fd.callNames, s ≠ "" ∧
      ∃ r ∈ taintedBy o c n.variablesRead (callResults f),
        r.name = some s := by
  intro s hs
  rw [findingsOfNode, List.mem_filterMap] at hfd
  rcases hfd with ⟨ir, hir, hg⟩
  have hfc : findingOfCondition o c f n = some fd := by
    cases ir <;> first | exact hg | exact Option.noConfusion hg
  by_cases hcond : taintedBy o c n.variablesRead f.parameters ≠ [] ∧
      taintedBy o c n.variablesRead (callResults f) ≠ []
  · simp only [findingOfCondition, if_pos hcond, Option.some.injEq] at hfc
    subst hfc
    simp only [List.mem_dedup, List.mem_filterMap] at hs
    rcases hs with ⟨r, hr, htr⟩
    cases hname : r.name with
    | none => simp [truthyName, hname] at htr
    | some s' =>
      by_cases hemp : s' = ""
      · simp [truthyName, hname, hemp] at htr
      · simp only [truthyName, hname, if_neg hemp, Option.some.injEq] at htr
        subst htr
        exact ⟨hemp, r, hr, hname⟩
  · simp only [findingOfCondition, if_neg hcond] at hfc
    exact Option.noConfusion hfc

/-- Witness for C7 (amended): the reported call name `amountOut` of the
swap fixture's finding is non-empty and names a tainting call result. -/
theorem callNames_omit_falsy_names_witness :
    "amountOut" ≠ "" ∧
      ∃ r ∈ taintedBy exO exC exGuardNode.variablesRead (callResults exSwap),
        r.name = some "amountOut" :=
  callNames_omit_falsy_names exO exC exSwap exGuardNode
    ⟨"swap", [7], [some "minOut"], ["amountOut"]⟩ (by decide)
    "amountOut" (by decide)

/-- Counterexample to C7 as stated: in `exC7` the tainting parameter is
unnamed, yet the emitted finding's parameter-name list reports the absent
name (`none`) instead of omitting it — only the call-name list is
filtered. -/
theorem paramNames_keep_absent_name_cex :
    analyze exO exC7 =
      [{ fnName := "anonParam", srcLines := [3],
         paramNames := [none], callNames := ["out"] }] := by rfl

theorem exceptBind_ok {α β : Type} (a : α) (g : α → Except Unit β) :
    (Except.ok a >>= g) = g a := rfl

theorem exceptBind_error {α β : Type} (g : α → Except Unit β) :
    ((Except.error () : Except Unit α) >>= g) = Except.error () := rfl

theorem depFilterE_allFail (c : Contract) (v : Var) :
    ∀ ps : List Var, depFilterE allFailOracle c v ps =
      if ps = [] then .ok [] else .error () := by
  intro ps
  cases ps with
  | nil => rfl
  | cons p ps' => rfl

theorem taintedByE_allFail (c : Contract) :
    ∀ vars cands : List Var, taintedByE allFailOracle c vars cands =
      if vars = [] ∨ cands = [] then .ok [] else .error () := by
  intro vars cands
  induction vars with
  | nil => simp [taintedByE]
  | cons v vs ih =>
    cases cands with
    | nil =>
      simp [taintedByE, depFilterE_allFail, exceptBind_ok, ih]
    | cons p ps =>
      simp [taintedByE, depFilterE_allFail, exceptBind_error]

theorem conditionQueries_eq_nil (vars params callRes : List Var) :
    conditionQueries vars params callRes = [] ↔
      vars = [] ∨ (params = [] ∧ callRes = []) := by
  rw [← List.length_eq_zero, length_conditionQueries, Nat.mul_eq_zero,
    Nat.add_eq_zero, List.length_eq_zero, List.length_eq_zero,
    List.length_eq_zero]

theorem findingOfConditionE_allFail (c : Contract) (f : Func) (n : Node) :
    findingOfConditionE allFailOracle c f n =
      if conditionQueries n.variablesRead f.parameters (callResults f) = []
      then .ok none else .error () := by
  by_cases hv : n.variablesRead = []
  · simp [findingOfConditionE, taintedByE_allFail, hv, exceptBind_ok,
      conditionQueries_eq_nil]
  · by_cases hp : f.parameters = []
    · by_cases hc : callResults f = []
      · simp [findingOfConditionE, taintedByE_allFail, hv, hp, hc,
          exceptBind_ok, conditionQueries_eq_nil]
      · simp [findingOfConditionE, taintedByE_allFail, hv, hp, hc,
          exceptBind_ok, exceptBind_error, conditionQueries_eq_nil]
    · simp [findingOfConditionE, taintedByE_allFail, hv, hp,
        exceptBind_error, conditionQueries_eq_nil]

theorem findingsOfNodeE_allFail (c : Contract) (f : Func) (n : Node) :
    ∀ l : List Op, findingsOfNodeE allFailOracle c f n l =
      if (l.flatMap (fun ir =>
            match ir with
            | Op.condition =>
                conditionQueries n.variablesRead f.parameters (callResults f)
            | _ => [])) = []
      then .ok [] else .error () := by
  intro l
  induction l with
  | nil => rfl
  | cons ir rest ih =>
    cases ir
    case condition =>
      by_cases hq : conditionQueries n.variablesRead f.parameters
          (callResults f) = []
      · simp [findingsOfNodeE, findingOfConditionE_allFail, hq,
          exceptBind_ok, ih, List.flatMap_cons, List.append_eq_nil]
      · simp [findingsOfNodeE, findingOfConditionE_allFail, hq,
          exceptBind_error, List.flatMap_cons, List.append_eq_nil]
    all_goals
      simp [findingsOfNodeE, exceptBind_ok, ih, List.flatMap_cons]

theorem findingsOfNodeE_allFail_irs (c : Contract) (f : Func) (n : Node) :
    findingsOfNodeE allFailOracle c f n n.irs =
      if nodeQueries f n = [] then .ok [] else .error () :=
  findingsOfNodeE_allFail c f n n.irs

theorem nodesE_allFail (c : Contract) (f : Func) :
    ∀ ns : List Node, nodesE allFailOracle c f ns =
      if ns.flatMap (nodeQueries f) = [] then .ok [] else .error () := by
  intro ns
  induction ns with
  | nil => rfl
  | cons n ns' ih =>
    by_cases hn : nodeQueries f n = []
    · simp [nodesE, findingsOfNodeE_allFail_irs, hn, exceptBind_ok, ih,
        List.flatMap_cons, List.append_eq_nil]
    · simp [nodesE, findingsOfNodeE_allFail_irs, hn, exceptBind_error,
        List.flatMap_cons, List.append_eq_nil]

theorem detectFunctionE_allFail (c : Contract) (f : Func) :
    detectFunctionE allFailOracle c f =
      if functionQueries f = [] then .ok [] else .error () := by
  by_cases h : callResults f = []
  · simp [detectFunctionE, functionQueries, h]
  · simp [detectFunctionE, functionQueries, h, nodesE_allFail]

theorem functionsE_allFail (c : Contract) :
    ∀ fs : List Func, functionsE allFailOracle c fs =
      if fs.flatMap functionQueries = [] then .ok [] else .error () := by
  intro fs
  induction fs with
  | nil => rfl
  | cons f fs' ih =>
    by_cases hf : functionQueries f = []
    · simp [functionsE, detectFunctionE_allFail, hf, exceptBind_ok, ih,
        List.flatMap_cons, List.append_eq_nil]
    · simp [functionsE, detectFunctionE_allFail, hf, exceptBind_error,
        List.flatMap_cons, List.append_eq_nil]

/-- C5 (amended): a failing oracle query is not absorbed at the comparison
boundary — `_detect` wraps no query in a handler, so the exception escapes
the node, the function and the contract: under an oracle whose queries
fail, any contract that performs at least one query yields an error
instead of a finding sequence. -/
theorem oracle_failure_aborts_contract (c : Contract)
    (h : analyzeQueries c ≠ []) :
    analyzeE allFailOracle c = Except.error () := by
  rw [analyzeE, functionsE_allFail]
  exact if_neg h

/-- Witness for C5 (amended): the example contract performs queries, so
the all-failing oracle aborts its whole analysis. -/
theorem oracle_failure_aborts_contract_witness :
    analyzeE allFailOracle exC = Except.error () :=
  oracle_failure_aborts_contract exC (by decide)

/-- Counterexample to C5 as stated: on `exC5` a single failing
`is_dependent` query makes the whole analysis return an error — it is not
treated as "not dependent" (which would yield the empty finding list that
the never-dependent pure oracle produces). -/
theorem oracle_failure_escape_cex :
    analyzeE allFailOracle exC5 = Except.error () ∧
      analyze (fun _ _ _ => false) exC5 = [] :=
  ⟨rfl, rfl⟩
